import Mathlib

/-
Verification of the watch-together client's playback synchronization
protocol, presence / host election, video-locator validation and the
video backend adapter, as a shallow embedding of the JavaScript source.

Times in milliseconds (wall clock, `Date.now()` / server timestamps) are
modelled as `Int`; playback positions in seconds are modelled as `Rat`
(the source uses JS numbers; every constant appearing in the claims is
exactly representable).
-/

namespace WatchTogether

/-! ## Room state and the synchronization controller (room.js, RoomManager) -/

/-- RoomState record stored at `rooms/{roomId}/state` (room.js, constructor
field `currentState`). -/
structure RoomState where
  url : String
  time : Rat
  playing : Bool
  updatedAt : Int
  hostId : String
deriving DecidableEq, Repr

/-- Abstract view of the `VideoPlayer` adapter as seen by the
synchronization controller: readiness, current playback position and
playing flag.  `seek`/`play`/`pause` below model the adapter call plus a
compliant backend having honoured it (the adapter records a seek target in
`this.currentTime`, and the backend's play/pause events settle the playing
flag); before readiness the adapter methods are no-ops, mirroring
video.js. -/
structure PlayerView where
  ready : Bool
  currentTime : Rat
  playing : Bool
deriving DecidableEq, Repr

/-- getCurrentTime (video.js): returns 0 before readiness. -/
def PlayerView.getCurrentTime (p : PlayerView) : Rat :=
  if p.ready then p.currentTime else 0

/-- isPlaying (video.js): returns false before readiness. -/
def PlayerView.isPlaying (p : PlayerView) : Bool :=
  p.ready && p.playing

/-- seek (video.js): no-op before readiness, else records the target time. -/
def PlayerView.seek (p : PlayerView) (t : Rat) : PlayerView :=
  if p.ready then { p with currentTime := t } else p

/-- play (video.js) as observed once the backend's play event settles. -/
def PlayerView.play (p : PlayerView) : PlayerView :=
  if p.ready then { p with playing := true } else p

/-- pause (video.js) as observed once the backend's pause event settles. -/
def PlayerView.pause (p : PlayerView) : PlayerView :=
  if p.ready then { p with playing := false } else p

/-- isReady (video.js). -/
def PlayerView.isReady (p : PlayerView) : Bool := p.ready

/-- Client-local fields of `RoomManager` (room.js) that the modelled
operations read or write. -/
structure RMState where
  userId : String
  isHost : Bool
  currentState : RoomState
  videoPlayer : PlayerView
  lastSyncTime : Int
  isUpdatingFromRemote : Bool
deriving DecidableEq, Repr

/-- Observable player commands issued by one reconciliation pass. -/
inductive SyncAction where
  | seekTo (t : Rat)
  | play
  | pause
deriving DecidableEq, Repr

/-- Dead-reckoned remote time (room.js, syncToRemoteState line
`const remoteTime = this.currentState.time + (timeSinceUpdate / 1000)`). -/
def predictedRemoteTime (st : RoomState) (now : Int) : Rat :=
  st.time + ((now - st.updatedAt : Int) : Rat) / 1000

/-- Drift between the dead-reckoned remote time and the local player time
(room.js, syncToRemoteState). -/
def driftOf (st : RoomState) (now : Int) (localTime : Rat) : Rat :=
  |predictedRemoteTime st now - localTime|

/-- syncToRemoteState (room.js lines 437-474), as a pure function of the
manager state, the wall-clock time `now = Date.now()` and the `force`
flag.  Returns the updated manager state together with the list of player
commands issued. -/
def syncToRemoteState (m : RMState) (now : Int) (force : Bool) :
    RMState × List SyncAction :=
  if m.isHost = true ∨ m.currentState.url = "" ∨ m.videoPlayer.isReady = false then
    (m, [])
  else
    let timeSinceUpdate : Int := now - m.currentState.updatedAt
    if timeSinceUpdate > 10000 ∧ force = false then
      (m, [])
    else
      let remoteTime := predictedRemoteTime m.currentState now
      let localTime := m.videoPlayer.getCurrentTime
      let drift := |remoteTime - localTime|
      let seekStep : PlayerView × List SyncAction :=
        if drift > 2/5 ∨ force = true then
          (m.videoPlayer.seek remoteTime, [SyncAction.seekTo remoteTime])
        else
          (m.videoPlayer, [])
      let p1 := seekStep.1
      let shouldBePlaying := m.currentState.playing
      let nowPlaying := p1.isPlaying
      let playStep : PlayerView × List SyncAction :=
        if shouldBePlaying = true ∧ nowPlaying = false then
          (p1.play, [SyncAction.play])
        else if shouldBePlaying = false ∧ nowPlaying = true then
          (p1.pause, [SyncAction.pause])
        else
          (p1, [])
      ({ m with videoPlayer := playStep.1, isUpdatingFromRemote := false },
        seekStep.2 ++ playStep.2)

/-- Partial update record passed to `updateRoomState` by the host's
load/play/pause/seek handlers (room.js); absent keys leave the cached
field unchanged, matching the object spread `{...this.currentState,
...updates}`. -/
structure StateUpdates where
  url : Option String := none
  time : Option Rat := none
  playing : Option Bool := none
deriving DecidableEq, Repr

/-- Spread of `updates` over the cached state (room.js, updateRoomState). -/
def applyUpdates (s : RoomState) (u : StateUpdates) : RoomState :=
  { url := u.url.getD s.url
    time := u.time.getD s.time
    playing := u.playing.getD s.playing
    updatedAt := s.updatedAt
    hostId := s.hostId }

/-- updateRoomState (room.js lines 388-405): non-hosts return immediately;
the host merges the updates, stamps `updatedAt := now` and
`hostId := userId`, caches the result and writes it to the store.  The
second component is the store write (`none` when nothing is written). -/
def updateRoomState (m : RMState) (u : StateUpdates) (now : Int) :
    RMState × Option RoomState :=
  if m.isHost = false then
    (m, none)
  else
    let newState : RoomState :=
      { applyUpdates m.currentState u with updatedAt := now, hostId := m.userId }
    ({ m with currentState := newState, lastSyncTime := now }, some newState)

end WatchTogether

namespace WatchTogether

/-- C1 -/
theorem viewer_dead_reckoning (T : Int) :
    (∀ (st : RoomState) (now : Int) (b : Bool),
        predictedRemoteTime { st with playing := b } now
          = st.time + ((now - st.updatedAt : Int) : Rat) / 1000)
    ∧ predictedRemoteTime
        { url := "v", time := 100, playing := true, updatedAt := T, hostId := "h" }
        (T + 3000) = 103
    ∧ driftOf
        { url := "v", time := 100, playing := true, updatedAt := T, hostId := "h" }
        (T + 3000) (203/2) = 3/2
    ∧ (syncToRemoteState
         { userId := "u2", isHost := false,
           currentState :=
             { url := "v", time := 100, playing := true, updatedAt := T, hostId := "h" },
           videoPlayer := { ready := true, currentTime := 203/2, playing := true },
           lastSyncTime := 0, isUpdatingFromRemote := false }
         (T + 3000) false).2 = [SyncAction.seekTo 103] := by
  have hstale : (T + 3000 - T : Int) = 3000 := by ring
  have hpred : predictedRemoteTime
      { url := "v", time := 100, playing := true, updatedAt := T, hostId := "h" }
      (T + 3000) = 103 := by
    simp only [predictedRemoteTime, hstale]
    norm_num
  refine ⟨fun st now b => rfl, hpred, ?_, ?_⟩
  · rw [driftOf, hpred]
    rw [show (103 : ℚ) - 203/2 = 3/2 by norm_num]
    rw [abs_of_nonneg (by norm_num)]
  · have h1 : ("v" : String) = "" ↔ False := by simp
    have hns : ¬ ((T + 3000 - T : Int) > 10000 ∧ False) := by simp
    have h2 : (2/5 : ℚ) < |(103 : ℚ) - 203/2| := by
      rw [show (103 : ℚ) - 203/2 = 3/2 by norm_num, abs_of_nonneg (by norm_num)]
      norm_num
    have h3 : (2/5 : ℚ) < |(3/2 : ℚ)| := by
      rw [abs_of_nonneg (by norm_num)]; norm_num
    simp only [syncToRemoteState, PlayerView.isReady, PlayerView.getCurrentTime,
      PlayerView.seek, PlayerView.isPlaying, PlayerView.play, PlayerView.pause, h1, hpred]
    norm_num [hstale, h3]

/-- C2 -/
theorem forced_sync_always_seeks (m : RMState) (now : Int)
    (hhost : m.isHost = false) (hurl : m.currentState.url ≠ "")
    (hready : m.videoPlayer.ready = true) :
    (syncToRemoteState m now true).2.head? =
        some (SyncAction.seekTo (predictedRemoteTime m.currentState now))
    ∧ (syncToRemoteState m now true).1.videoPlayer.currentTime =
        predictedRemoteTime m.currentState now := by
  simp only [syncToRemoteState, PlayerView.isReady, PlayerView.getCurrentTime,
    PlayerView.seek, PlayerView.isPlaying, PlayerView.play, PlayerView.pause,
    hhost, hurl, hready]
  norm_num
  split_ifs <;> simp

/-- Unfolding lemma: the early viewer/url/readiness guard of
syncToRemoteState (room.js line 438). -/
lemma sync_guard_eq (m : RMState) (now : Int) (force : Bool)
    (h1 : m.isHost = true ∨ m.currentState.url = "" ∨ m.videoPlayer.isReady = false) :
    syncToRemoteState m now force = (m, []) := by
  simp only [syncToRemoteState, if_pos h1]

/-- Unfolding lemma: the staleness guard of syncToRemoteState
(room.js line 441). -/
lemma sync_skip_eq (m : RMState) (now : Int) (force : Bool)
    (h1 : ¬ (m.isHost = true ∨ m.currentState.url = "" ∨ m.videoPlayer.isReady = false))
    (h2 : now - m.currentState.updatedAt > 10000 ∧ force = false) :
    syncToRemoteState m now force = (m, []) := by
  simp only [syncToRemoteState, if_neg h1, if_pos h2]

/-- Unfolding lemma: the reconciliation body of syncToRemoteState. -/
lemma sync_act_eq (m : RMState) (now : Int) (force : Bool)
    (h1 : ¬ (m.isHost = true ∨ m.currentState.url = "" ∨ m.videoPlayer.isReady = false))
    (h2 : ¬ (now - m.currentState.updatedAt > 10000 ∧ force = false)) :
    syncToRemoteState m now force =
      (let r := predictedRemoteTime m.currentState now
       let seekStep : PlayerView × List SyncAction :=
         if |r - m.videoPlayer.getCurrentTime| > 2/5 ∨ force = true then
           (m.videoPlayer.seek r, [SyncAction.seekTo r])
         else (m.videoPlayer, [])
       let playStep : PlayerView × List SyncAction :=
         if m.currentState.playing = true ∧ seekStep.1.isPlaying = false then
           (seekStep.1.play, [SyncAction.play])
         else if m.currentState.playing = false ∧ seekStep.1.isPlaying = true then
           (seekStep.1.pause, [SyncAction.pause])
         else (seekStep.1, [])
       ({ m with videoPlayer := playStep.1, isUpdatingFromRemote := false },
         seekStep.2 ++ playStep.2)) := by
  simp only [syncToRemoteState, if_neg h1, if_neg h2]

/-- C3 -/
theorem stale_nonforced_sync_skips (m : RMState) (now : Int)
    (hstale : now - m.currentState.updatedAt > 10000) :
    syncToRemoteState m now false = (m, []) := by
  by_cases h1 : m.isHost = true ∨ m.currentState.url = "" ∨ m.videoPlayer.isReady = false
  · exact sync_guard_eq m now false h1
  · exact sync_skip_eq m now false h1 ⟨hstale, rfl⟩

/-- Reconciliation issues no player command when the local player already
matches the cached state (drift within threshold, playing flag equal). -/
lemma sync_no_act (m : RMState) (now : Int)
    (hready : m.videoPlayer.ready = true)
    (hplay : m.videoPlayer.playing = m.currentState.playing)
    (hdrift : ¬ (|predictedRemoteTime m.currentState now - m.videoPlayer.currentTime| > 2/5)) :
    (syncToRemoteState m now false).2 = [] := by
  by_cases h1 : m.isHost = true ∨ m.currentState.url = "" ∨ m.videoPlayer.isReady = false
  · rw [sync_guard_eq m now false h1]
  · by_cases h2 : now - m.currentState.updatedAt > 10000 ∧ (false : Bool) = false
    · rw [sync_skip_eq m now false h1 h2]
    · rw [sync_act_eq m now false h1 h2]
      simp only
      rw [PlayerView.getCurrentTime, if_pos hready]
      rw [if_neg (by simp only [Bool.false_eq_true, or_false]; exact hdrift)]
      have hip : m.videoPlayer.isPlaying = m.currentState.playing := by
        rw [PlayerView.isPlaying, hready, Bool.true_and, hplay]
      cases hsp : m.currentState.playing
      · rw [if_neg (by simp [hsp]), if_neg (by simp [hip, hsp])]; rfl
      · rw [if_neg (by simp [hip, hsp]), if_neg (by simp [hsp])]; rfl

/-- C4 -/
theorem sync_idempotent (m : RMState) (now : Int) (force : Bool) :
    (syncToRemoteState (syncToRemoteState m now force).1 now false).2 = [] := by
  by_cases h1 : m.isHost = true ∨ m.currentState.url = "" ∨ m.videoPlayer.isReady = false
  · rw [sync_guard_eq m now force h1, sync_guard_eq m now false h1]
  · by_cases h2 : now - m.currentState.updatedAt > 10000 ∧ force = false
    · rw [sync_skip_eq m now force h1 h2, sync_skip_eq m now false h1 ⟨h2.1, rfl⟩]
    · have hready : m.videoPlayer.ready = true := by
        cases hb : m.videoPlayer.ready
        · exact absurd (Or.inr (Or.inr (by rw [PlayerView.isReady]; exact hb))) h1
        · rfl
      rw [sync_act_eq m now force h1 h2]
      simp only
      set r := predictedRemoteTime m.currentState now with hr
      set p1 : PlayerView :=
        (if |r - m.videoPlayer.getCurrentTime| > 2/5 ∨ force = true then
           (m.videoPlayer.seek r, [SyncAction.seekTo r])
         else (m.videoPlayer, [])).1 with hp1
      set p2 : PlayerView :=
        (if m.currentState.playing = true ∧ p1.isPlaying = false then
           (p1.play, [SyncAction.play])
         else if m.currentState.playing = false ∧ p1.isPlaying = true then
           (p1.pause, [SyncAction.pause])
         else (p1, [])).1 with hp2
      have hp1ready : p1.ready = true := by
        rw [hp1]; split_ifs with h
        · simp only [PlayerView.seek, if_pos hready]; exact hready
        · exact hready
      have hp1time : p1.currentTime = r ∨
          (p1.currentTime = m.videoPlayer.currentTime
            ∧ ¬ (|r - m.videoPlayer.currentTime| > 2/5)) := by
        rw [hp1]; split_ifs with h
        · left; simp only [PlayerView.seek, if_pos hready]
        · right
          refine ⟨rfl, ?_⟩
          rw [PlayerView.getCurrentTime, if_pos hready] at h
          exact fun hc => h (Or.inl hc)
      have hp2ready : p2.ready = true := by
        rw [hp2]; split_ifs with ha hb
        · simp only [PlayerView.play, if_pos hp1ready]; exact hp1ready
        · simp only [PlayerView.pause, if_pos hp1ready]; exact hp1ready
        · exact hp1ready
      have hp2time : p2.currentTime = p1.currentTime := by
        rw [hp2]; split_ifs with ha hb
        · simp only [PlayerView.play, if_pos hp1ready]
        · simp only [PlayerView.pause, if_pos hp1ready]
        · rfl
      have hip1 : p1.isPlaying = p1.playing := by
        rw [PlayerView.isPlaying, hp1ready, Bool.true_and]
      have hp2play : p2.playing = m.currentState.playing := by
        rw [hp2]; cases hsp : m.currentState.playing <;> cases hpp : p1.playing
        · rw [if_neg (by simp [hsp]), if_neg (by simp [hip1, hpp])]; exact hpp
        · rw [if_neg (by simp [hsp]), if_pos (by simp [hsp, hip1, hpp])]
          simp only [PlayerView.pause, if_pos hp1ready]
        · rw [if_pos (by simp [hsp, hip1, hpp])]
          simp only [PlayerView.play, if_pos hp1ready]
        · rw [if_neg (by simp [hip1, hpp]), if_neg (by simp [hsp])]; exact hpp
      refine sync_no_act _ now hp2ready ?_ ?_
      · exact hp2play
      · simp only [hp2time]
        rcases hp1time with h | ⟨heq, hlt⟩
        · rw [h]
          simp only [sub_self, abs_zero]
          norm_num
        · rw [heq]
          exact hlt

/-! ## Presence and host election (presence.js, PresenceManager) -/

/-- PresenceEntry payload written at `rooms/{roomId}/presence/{userId}`
(presence.js, connect): display name, `joinedAt = Date.now()` at connect
time and the heartbeat-refreshed `lastSeen` server timestamp. -/
structure UserData where
  name : String
  joinedAt : Int
  lastSeen : Int
deriving DecidableEq, Repr

/-- Local view of a presence entry after a snapshot is processed
(presence.js, updatePresence): the entry's fields plus the computed
`isOnline` flag, matching the spread `{...userData, isOnline}`. -/
structure UserView where
  name : String
  joinedAt : Int
  lastSeen : Int
  isOnline : Bool
deriving DecidableEq, Repr

/-- Effective last-seen value `userData.lastSeen || userData.joinedAt || now`
(presence.js, updatePresence); JS `||` falls through on the number 0. -/
def effLastSeen (d : UserData) (now : Int) : Int :=
  if d.lastSeen ≠ 0 then d.lastSeen else if d.joinedAt ≠ 0 then d.joinedAt else now

/-- Processing of one `[userId, userData]` pair of a presence snapshot
(presence.js, updatePresence body of the forEach): entries seen less than
60000 ms ago are kept, tagged online when seen less than 35000 ms ago;
older entries are dropped. -/
def viewEntry (q : String × UserData) (now : Int) : Option (String × UserView) :=
  let ls := effLastSeen q.2 now
  let timeSinceLastSeen := now - ls
  if timeSinceLastSeen < 60000 then
    some (q.1, { name := q.2.name, joinedAt := q.2.joinedAt, lastSeen := q.2.lastSeen,
                 isOnline := decide (timeSinceLastSeen < 35000) })
  else
    none

/-- updatePresence (presence.js lines 64-100): rebuild the local user map
from a presence snapshot, dropping stale entries.  The snapshot object is
modelled as an association list (`Object.entries` order). -/
def updatePresence (presenceData : List (String × UserData)) (now : Int) :
    List (String × UserView) :=
  presenceData.filterMap (fun q => viewEntry q now)

/-- Comparator `(a, b) => a.joinedAt - b.joinedAt` of the host-election
sort (presence.js, updateHost), as the ordering relation it induces. -/
def byJoined (a b : String × UserView) : Prop := a.2.joinedAt ≤ b.2.joinedAt

instance : DecidableRel byJoined :=
  fun a b => inferInstanceAs (Decidable (a.2.joinedAt ≤ b.2.joinedAt))

instance : IsTotal (String × UserView) byJoined :=
  ⟨fun a b => le_total a.2.joinedAt b.2.joinedAt⟩

instance : IsTrans (String × UserView) byJoined :=
  ⟨fun _ _ _ hab hbc => le_trans hab hbc⟩

/-- Election rule of updateHost (presence.js lines 103-107): filter the
online users, sort ascending by `joinedAt`, take the first user id (or
null when nobody is online). -/
def electHost (users : List (String × UserView)) : Option String :=
  (((users.filter (fun p => p.2.isOnline)).insertionSort byJoined).head?).map
    (fun p => p.1)

/-- Full presence view kept by one client: composition of updatePresence
with the election rule. -/
def electedHost (l : List (String × UserData)) (now : Int) : Option String :=
  electHost (updatePresence l now)

/-- Online viewer count (presence.js, updateViewersCount). -/
def onlineViewerCount (users : List (String × UserView)) : Nat :=
  (users.filter (fun p => p.2.isOnline)).length

/-- Fields of `PresenceManager` (presence.js) read or written by
updateHost, with `hasCallback` recording whether a host-change callback
is registered. -/
structure PMState where
  users : List (String × UserView)
  hostId : Option String
  hasCallback : Bool
deriving DecidableEq, Repr

/-- RoomState patch written by updateRoomHost (presence.js lines 123-135):
`{ hostId: newHostId, updatedAt: Date.now() }`. -/
structure HostWrite where
  hostId : Option String
  updatedAt : Int
deriving DecidableEq, Repr

/-- updateHost (presence.js lines 102-121): elect a host; when the elected
id differs from the held one, record it, write the RoomState patch and
notify the registered callback with `(newHostId, previousHostId)`.
Returns the new manager state, the store write (if any) and the callback
invocation (if any). -/
def updateHost (pm : PMState) (now : Int) :
    PMState × Option HostWrite × Option (Option String × Option String) :=
  let newHostId := electHost pm.users
  if newHostId ≠ pm.hostId then
    ({ pm with hostId := newHostId },
      some { hostId := newHostId, updatedAt := now },
      if pm.hasCallback then some (newHostId, pm.hostId) else none)
  else
    (pm, none, none)

/-- Pairwise-incompatible elements of a list are equal; used to exploit
distinctness of `joinedAt` values and of user ids. -/
lemma eq_of_pairwise_of_mem {α : Type} {r : α → α → Prop} {l : List α}
    (h : l.Pairwise r) {a b : α} (ha : a ∈ l) (hb : b ∈ l)
    (hab : ¬ r a b) (hba : ¬ r b a) : a = b := by
  induction l with
  | nil => cases ha
  | cons x t ih =>
    rcases List.pairwise_cons.mp h with ⟨hx, ht⟩
    rcases List.mem_cons.mp ha with rfl | ha'
    · rcases List.mem_cons.mp hb with rfl | hb'
      · rfl
      · exact absurd (hx _ hb') hab
    · rcases List.mem_cons.mp hb with rfl | hb'
      · exact absurd (hx _ ha') hba
      · exact ih ht ha' hb'

/-- C5 -/
theorem host_election_deterministic
    (l l' : List (String × UserData)) (now : Int)
    (hperm : l.Perm l')
    (hls : ∀ q ∈ l, q.2.lastSeen ≠ 0)
    (hdist : l.Pairwise (fun a b => a.2.joinedAt ≠ b.2.joinedAt))
    (u : String × UserData) (hu : u ∈ l)
    (huon : now - u.2.lastSeen < 35000)
    (hmin : ∀ v ∈ l, now - v.2.lastSeen < 35000 → u.2.joinedAt ≤ v.2.joinedAt) :
    electedHost l' now = some u.1 := by
  have hls' : ∀ q ∈ l', q.2.lastSeen ≠ 0 := fun q hq => hls q (hperm.mem_iff.mpr hq)
  have hdist' : l'.Pairwise (fun a b => a.2.joinedAt ≠ b.2.joinedAt) :=
    (hperm.pairwise_iff (fun {_ _} h => Ne.symm h)).mp hdist
  have hu' : u ∈ l' := hperm.mem_iff.mp hu
  have hmin' : ∀ v ∈ l', now - v.2.lastSeen < 35000 → u.2.joinedAt ≤ v.2.joinedAt :=
    fun v hv => hmin v (hperm.mem_iff.mpr hv)
  set uv : String × UserView :=
    (u.1, { name := u.2.name, joinedAt := u.2.joinedAt, lastSeen := u.2.lastSeen,
            isOnline := true }) with huv
  have hview : viewEntry u now = some uv := by
    rw [viewEntry]
    simp only [effLastSeen, if_pos (hls u hu)]
    rw [if_pos (by omega)]
    simp [huv, huon]
  have hm1 : uv ∈ updatePresence l' now :=
    List.mem_filterMap.mpr ⟨u, hu', hview⟩
  have hm2 : uv ∈ (updatePresence l' now).filter (fun p => p.2.isOnline) :=
    List.mem_filter.mpr ⟨hm1, rfl⟩
  set ol := (updatePresence l' now).filter (fun p => p.2.isOnline) with hol
  have hm3 : uv ∈ ol.insertionSort byJoined := (List.mem_insertionSort byJoined).mpr hm2
  rcases hcons : ol.insertionSort byJoined with _ | ⟨w, t'⟩
  · rw [hcons] at hm3; cases hm3
  · have hres : electedHost l' now = some w.1 := by
      rw [electedHost, electHost, ← hol, hcons]; rfl
    have hw : w ∈ ol := by
      rw [← List.mem_insertionSort (r := byJoined), hcons]
      exact List.mem_cons_self w t'
    rcases List.mem_filter.mp hw with ⟨hwup, hwon⟩
    rcases List.mem_filterMap.mp hwup with ⟨v, hv, hvw⟩
    rw [viewEntry] at hvw
    simp only [effLastSeen, if_pos (hls' v hv)] at hvw
    by_cases h60 : now - v.2.lastSeen < 60000
    · rw [if_pos h60] at hvw
      have hwfields := (Option.some.inj hvw).symm
      have hwon35 : now - v.2.lastSeen < 35000 := by
        rw [hwfields] at hwon
        simpa using hwon
      have hujv : u.2.joinedAt ≤ v.2.joinedAt := hmin' v hv hwon35
      have hwj : w.2.joinedAt = v.2.joinedAt := by rw [hwfields]
      rcases List.mem_cons.mp (hcons ▸ hm3) with rfl | hmem
      · exact hres
      · have hsorted := List.sorted_insertionSort byJoined ol
        rw [hcons] at hsorted
        have hwle : byJoined w uv := (List.pairwise_cons.mp hsorted).1 uv hmem
        have huvj : uv.2.joinedAt = u.2.joinedAt := rfl
        rw [byJoined, huvj, hwj] at hwle
        have hveq : v.2.joinedAt = u.2.joinedAt := le_antisymm hwle hujv
        have : v = u :=
          eq_of_pairwise_of_mem hdist' hv hu'
            (by simpa using hveq) (by simpa using hveq.symm)
        rw [hres, hwfields, this]
    · rw [if_neg h60] at hvw
      cases hvw

/-- Counting lemma: the online viewer count computed from a processed
snapshot equals the number of snapshot entries last seen less than
35000 ms ago (an online entry is automatically within the 60000 ms
retention window). -/
lemma onlineViewerCount_updatePresence (now : Int) (l : List (String × UserData))
    (hls : ∀ q ∈ l, q.2.lastSeen ≠ 0) :
    onlineViewerCount (updatePresence l now)
      = (l.filter (fun q => decide (now - q.2.lastSeen < 35000))).length := by
  revert hls
  induction l with
  | nil => intro _; rfl
  | cons q t ih =>
    intro hls
    have hq : q.2.lastSeen ≠ 0 := hls q (List.mem_cons_self q t)
    have ht : ∀ p ∈ t, p.2.lastSeen ≠ 0 :=
      fun p hp => hls p (List.mem_cons_of_mem q hp)
    have hEff : effLastSeen q.2 now = q.2.lastSeen := if_pos hq
    by_cases h60 : now - q.2.lastSeen < 60000
    · have hv : viewEntry q now =
          some (q.1, { name := q.2.name, joinedAt := q.2.joinedAt,
                       lastSeen := q.2.lastSeen,
                       isOnline := decide (now - q.2.lastSeen < 35000) }) := by
        rw [viewEntry]
        simp only [hEff]
        rw [if_pos h60]
      by_cases h35 : now - q.2.lastSeen < 35000
      · have hrec := ih ht
        simp only [updatePresence, onlineViewerCount] at hrec ⊢
        rw [List.filterMap_cons, hv]
        simp [List.filter_cons, h35, hrec]
      · have hrec := ih ht
        simp only [updatePresence, onlineViewerCount] at hrec ⊢
        rw [List.filterMap_cons, hv]
        simp [List.filter_cons, h35, hrec]
    · have hv : viewEntry q now = none := by
        rw [viewEntry]
        simp only [hEff]
        rw [if_neg h60]
      have h35 : ¬ (now - q.2.lastSeen < 35000) := by omega
      have hrec := ih ht
      simp only [updatePresence, onlineViewerCount] at hrec ⊢
      rw [List.filterMap_cons, hv]
      simp [List.filter_cons, h35, hrec]

/-- C6 -/
theorem stale_presence_dropped (l : List (String × UserData)) (now : Int)
    (hls : ∀ q ∈ l, q.2.lastSeen ≠ 0)
    (hkeys : l.Pairwise (fun a b => a.1 ≠ b.1)) :
    (∀ q ∈ l, 60000 ≤ now - q.2.lastSeen →
        (∀ p ∈ updatePresence l now, p.1 ≠ q.1) ∧ electedHost l now ≠ some q.1)
    ∧ (∀ q ∈ l, now - q.2.lastSeen < 60000 →
        ((q.1, { name := q.2.name, joinedAt := q.2.joinedAt, lastSeen := q.2.lastSeen,
                 isOnline := decide (now - q.2.lastSeen < 35000) }) : String × UserView)
          ∈ updatePresence l now)
    ∧ onlineViewerCount (updatePresence l now)
        = (l.filter (fun q => decide (now - q.2.lastSeen < 35000))).length := by
  have hdropped : ∀ q ∈ l, 60000 ≤ now - q.2.lastSeen →
      ∀ p ∈ updatePresence l now, p.1 ≠ q.1 := by
    intro q hq hstale p hp heq
    rcases List.mem_filterMap.mp hp with ⟨v, hv, hvp⟩
    rw [viewEntry] at hvp
    simp only [effLastSeen, if_pos (hls v hv)] at hvp
    by_cases h60 : now - v.2.lastSeen < 60000
    · rw [if_pos h60] at hvp
      have hp1 : p.1 = v.1 := by rw [← Option.some.inj hvp]
      have hveq : v = q := by
        refine eq_of_pairwise_of_mem hkeys hv hq ?_ ?_
        · simpa using (hp1 ▸ heq : v.1 = q.1).symm.symm
        · simpa using (hp1 ▸ heq : v.1 = q.1).symm
      rw [hveq] at h60
      omega
    · rw [if_neg h60] at hvp
      cases hvp
  refine ⟨fun q hq hstale => ⟨hdropped q hq hstale, ?_⟩, fun q hq h60 => ?_, ?_⟩
  · intro helect
    rw [electedHost, electHost] at helect
    rcases hcons : ((updatePresence l now).filter
        (fun p => p.2.isOnline)).insertionSort byJoined with _ | ⟨w, t'⟩
    · rw [hcons] at helect
      cases helect
    · rw [hcons] at helect
      have hw1 : w.1 = q.1 := Option.some.inj helect
      have hw : w ∈ (updatePresence l now).filter (fun p => p.2.isOnline) := by
        rw [← List.mem_insertionSort (r := byJoined), hcons]
        exact List.mem_cons_self w t'
      exact hdropped q hq hstale w (List.mem_filter.mp hw).1 hw1
  · refine List.mem_filterMap.mpr ⟨q, hq, ?_⟩
    rw [viewEntry]
    simp only [effLastSeen, if_pos (hls q hq)]
    rw [if_pos h60]
  · exact onlineViewerCount_updatePresence now l hls

/-- C10 -/
theorem empty_online_elects_null (pm : PMState) (now : Int)
    (hempty : pm.users.filter (fun p => p.2.isOnline) = [])
    (hcb : pm.hasCallback = true)
    (hprev : pm.hostId ≠ none) :
    electHost pm.users = none
    ∧ (updateHost pm now).1.hostId = none
    ∧ (updateHost pm now).2.1 = some { hostId := none, updatedAt := now }
    ∧ (updateHost pm now).2.2 = some (none, pm.hostId) := by
  have he : electHost pm.users = none := by
    rw [electHost, hempty]
    rfl
  have hne : (none : Option String) ≠ pm.hostId := fun h => hprev h.symm
  refine ⟨he, ?_, ?_, ?_⟩
  · rw [updateHost, he]
    rw [if_pos hne]
  · rw [updateHost, he]
    rw [if_pos hne]
  · rw [updateHost, he]
    rw [if_pos hne]
    simp only [hcb, if_pos]

/-- C7 -/
theorem updateRoomState_host_only (m : RMState) (u u2 : StateUpdates)
    (now1 now2 : Int) :
    (m.isHost = false → updateRoomState m u now1 = (m, none))
    ∧ (m.isHost = true →
        (updateRoomState m u now1).1.currentState.hostId = m.userId
        ∧ (updateRoomState m u now1).1.currentState.updatedAt = now1
        ∧ (updateRoomState m u now1).2 = some (updateRoomState m u now1).1.currentState
        ∧ (now1 ≤ now2 →
            (updateRoomState m u now1).1.currentState.updatedAt ≤
              (updateRoomState (updateRoomState m u now1).1 u2 now2).1.currentState.updatedAt)) := by
  constructor
  · intro h
    rw [updateRoomState, if_pos h]
  · intro h
    have hne : ¬ (m.isHost = false) := by simp [h]
    simp only [updateRoomState, if_neg hne]
    exact ⟨trivial, trivial, trivial, fun hle => hle⟩

/-! ## Concrete fixtures used by the witness theorems -/

/-- Concrete cached room state for witnesses. -/
def wState : RoomState :=
  { url := "v", time := 100, playing := true, updatedAt := 0, hostId := "h" }

/-- Concrete ready player for witnesses. -/
def wPlayer : PlayerView := { ready := true, currentTime := 50, playing := true }

/-- Concrete viewer-side manager state for witnesses. -/
def wViewer : RMState :=
  { userId := "u2", isHost := false, currentState := wState,
    videoPlayer := wPlayer, lastSyncTime := 0, isUpdatingFromRemote := false }

/-- Concrete host-side manager state for witnesses. -/
def wHost : RMState := { wViewer with userId := "h", isHost := true }

/-- Witness for C2 at a concrete viewer state. -/
theorem forced_sync_always_seeks_witness :
    (syncToRemoteState wViewer 5 true).2.head? =
        some (SyncAction.seekTo (predictedRemoteTime wViewer.currentState 5))
    ∧ (syncToRemoteState wViewer 5 true).1.videoPlayer.currentTime =
        predictedRemoteTime wViewer.currentState 5 :=
  forced_sync_always_seeks wViewer 5 rfl (by decide) rfl

/-- Witness for C3 at a concrete stale state. -/
theorem stale_nonforced_sync_skips_witness :
    syncToRemoteState wViewer 20000 false = (wViewer, []) :=
  stale_nonforced_sync_skips wViewer 20000 (by decide)

/-- Concrete presence entries for witnesses. -/
def wEntryA : String × UserData := ("alice", { name := "A", joinedAt := 100, lastSeen := 1000 })

/-- Concrete presence entry joining later than `wEntryA`. -/
def wEntryB : String × UserData := ("bob", { name := "B", joinedAt := 200, lastSeen := 1000 })

/-- Witness for C5: the election over two entries in either enumeration
order picks the earliest-joined online entry. -/
theorem host_election_deterministic_witness :
    electedHost [wEntryA, wEntryB] 1000 = some "alice" :=
  host_election_deterministic [wEntryB, wEntryA] [wEntryA, wEntryB] 1000
    (List.Perm.swap wEntryA wEntryB [])
    (by decide) (by decide) wEntryA (by decide) (by decide) (by decide)

/-- Concrete fresh presence entry for the C6 witness. -/
def wFresh : String × UserData := ("fresh", { name := "F", joinedAt := 1, lastSeen := 90000 })

/-- Concrete stale presence entry for the C6 witness. -/
def wStale : String × UserData := ("stale", { name := "S", joinedAt := 2, lastSeen := 30000 })

/-- Witness for C6 at a two-entry snapshot with one stale entry. -/
theorem stale_presence_dropped_witness :
    (∀ p ∈ updatePresence [wFresh, wStale] 100000, p.1 ≠ "stale")
    ∧ electedHost [wFresh, wStale] 100000 ≠ some "stale"
    ∧ onlineViewerCount (updatePresence [wFresh, wStale] 100000) = 1 := by
  have h := stale_presence_dropped [wFresh, wStale] 100000 (by decide) (by decide)
  refine ⟨(h.1 wStale (by decide) (by decide)).1,
          (h.1 wStale (by decide) (by decide)).2, ?_⟩
  rw [h.2.2]
  decide

/-- Witness for C7 at concrete viewer and host states. -/
theorem updateRoomState_host_only_witness :
    updateRoomState wViewer { playing := some false } 7 = (wViewer, none)
    ∧ (updateRoomState wHost { playing := some false } 7).1.currentState.hostId = "h"
    ∧ (updateRoomState wHost { playing := some false } 7).1.currentState.updatedAt = 7
    ∧ (updateRoomState wHost { playing := some false } 7).1.currentState.updatedAt ≤
        (updateRoomState (updateRoomState wHost { playing := some false } 7).1
          { time := some 3 } 9).1.currentState.updatedAt := by
  refine ⟨(updateRoomState_host_only wViewer { playing := some false }
      { time := some 3 } 7 9).1 rfl, ?_⟩
  have h := (updateRoomState_host_only wHost { playing := some false }
      { time := some 3 } 7 9).2 rfl
  exact ⟨h.1, h.2.1, h.2.2.2 (by decide)⟩

/-- Concrete presence-manager state with an empty online subset for the
C10 witness. -/
def wPM : PMState :=
  { users := [("carol", { name := "C", joinedAt := 5, lastSeen := 6, isOnline := false })],
    hostId := some "carol", hasCallback := true }

/-- Witness for C10 at a concrete manager state. -/
theorem empty_online_elects_null_witness :
    electHost wPM.users = none
    ∧ (updateHost wPM 9).1.hostId = none
    ∧ (updateHost wPM 9).2.1 = some { hostId := none, updatedAt := 9 }
    ∧ (updateHost wPM 9).2.2 = some (none, wPM.hostId) :=
  empty_online_elects_null wPM 9 rfl rfl (by decide)

/-! ## Video locator validation (src/js/app.js)

The browser's `URL` constructor and `URLSearchParams` are external
builtins; `parseURL`, `queryPairs`, `spGet` and `spHas` below model their
behaviour on the absolute `scheme://host/path?query#fragment` URLs this
application handles (no userinfo, no percent-escapes), including the
TypeError thrown on a relative URL (modelled as `none`) and hostname
lowercasing.  `validateVideoUrl`, `cleanYouTubeUrl` and `cleanVimeoUrl`
are translated from app.js. -/

/-- Lowercasing of a character list (JS String.toLowerCase on the ASCII
URLs involved). -/
def lcStr (s : List Char) : List Char := s.map Char.toLower

/-- Boolean test that the first list is an initial segment of the second. -/
def startsWithL : List Char → List Char → Bool
  | [], _ => true
  | _ :: _, [] => false
  | a :: as, b :: bs => a == b && startsWithL as bs

/-- Substring test (JS String.includes). -/
def containsL : List Char → List Char → Bool
  | [], needle => needle.isEmpty
  | c :: t, needle => startsWithL needle (c :: t) || containsL t needle

/-- Suffix test (JS String.endsWith). -/
def endsWithL (hay needle : List Char) : Bool :=
  startsWithL needle.reverse hay.reverse

/-- Longest leading run of ASCII digits. -/
def takeDigits : List Char → List Char
  | [] => []
  | c :: t => if c.isDigit then c :: takeDigits t else []

/-- First match of the regular expression `\/(\d+)` (app.js,
cleanVimeoUrl): scan for a slash followed by at least one digit and
capture the digit run. -/
def vimeoIdScan : List Char → Option (List Char)
  | '/' :: c :: t =>
    if c.isDigit then some (takeDigits (c :: t)) else vimeoIdScan (c :: t)
  | _ :: t => vimeoIdScan t
  | [] => none

/-- Split at the first occurrence of `sep`, or `none` when absent. -/
def splitOnceL (sep : List Char) : List Char → Option (List Char × List Char)
  | [] => if sep.isEmpty then some ([], []) else none
  | c :: t =>
    if startsWithL sep (c :: t) then some ([], (c :: t).drop sep.length)
    else
      match splitOnceL sep t with
      | some (a, b) => some (c :: a, b)
      | none => none

/-- Split at every occurrence of the character `sep`. -/
def splitAllL (sep : Char) : List Char → List (List Char)
  | [] => [[]]
  | c :: t =>
    match splitAllL sep t with
    | [] => [[]]
    | h :: r => if c == sep then [] :: h :: r else (c :: h) :: r

/-- Components of a parsed URL used by app.js. -/
structure URLParts where
  hostname : List Char
  pathname : List Char
  search : List Char
deriving DecidableEq, Repr

/-- Model of `new URL(s)` for absolute URLs: requires an alphabetic scheme
followed by `://` and a nonempty host (a relative string such as
`foo.mp4` throws, modelled as `none`); the hostname is lowercased and an
empty path becomes `/`. -/
def parseURL (s : String) : Option URLParts :=
  match splitOnceL "://".toList s.toList with
  | none => none
  | some (scheme, rest) =>
    if scheme.isEmpty || !(scheme.all Char.isAlpha) then none
    else
      let auth := rest.takeWhile (fun c => !(c == '/' || c == '?' || c == '#'))
      let after := rest.dropWhile (fun c => !(c == '/' || c == '?' || c == '#'))
      let hostname := lcStr (auth.takeWhile (fun c => !(c == ':')))
      if hostname.isEmpty then none
      else
        let path := after.takeWhile (fun c => !(c == '?' || c == '#'))
        let after2 := after.dropWhile (fun c => !(c == '?' || c == '#'))
        let pathname := if path.isEmpty then ['/'] else path
        let search :=
          match after2 with
          | '?' :: q => q.takeWhile (fun c => !(c == '#'))
          | _ => []
        some { hostname := hostname, pathname := pathname, search := search }

/-- Key/value pairs of a query string (model of URLSearchParams). -/
def queryPairs (q : List Char) : List (List Char × List Char) :=
  ((splitAllL '&' q).filter (fun s => !s.isEmpty)).map
    (fun kv => (kv.takeWhile (fun c => !(c == '=')),
                (kv.dropWhile (fun c => !(c == '='))).drop 1))

/-- searchParams.get. -/
def spGet (q : List Char) (key : List Char) : Option (List Char) :=
  (((queryPairs q).filter (fun p => p.1 == key)).head?).map (fun p => p.2)

/-- searchParams.has. -/
def spHas (q : List Char) (key : List Char) : Bool := (spGet q key).isSome

/-- Video kinds recognized by validateVideoUrl (the `type` strings
`youtube` / `vimeo` / `mp4`). -/
inductive VKind where
  | youtube
  | vimeo
  | mp4
deriving DecidableEq, Repr

/-- cleanYouTubeUrl (app.js lines 107-125): canonicalize to
`https://www.youtube.com/watch?v=ID`, taking the id from the `youtu.be`
path or the `v` query parameter; on failure return the input unchanged. -/
def cleanYouTubeUrl (url : String) : String :=
  match parseURL url with
  | none => url
  | some u =>
    let videoId : List Char :=
      if u.hostname == "youtu.be".toList then u.pathname.drop 1
      else if spHas u.search "v".toList then (spGet u.search "v".toList).getD []
      else []
    if videoId.isEmpty then url
    else String.mk ("https://www.youtube.com/watch?v=".toList ++ videoId)

/-- cleanVimeoUrl (app.js lines 127-138): canonicalize to
`https://vimeo.com/ID` using the first slash-digits run of the path; on
failure return the input unchanged. -/
def cleanVimeoUrl (url : String) : String :=
  match parseURL url with
  | none => url
  | some u =>
    match vimeoIdScan u.pathname with
    | some ds => String.mk ("https://vimeo.com/".toList ++ ds)
    | none => url

/-- validateVideoUrl (app.js lines 82-105): classify a locator as
YouTube, Vimeo or direct MP4 and canonicalize it; anything else (or an
unparseable URL) is rejected with `null`, modelled as `none`. -/
def validateVideoUrl (url : String) : Option (VKind × String) :=
  match parseURL url with
  | none => none
  | some u =>
    if containsL u.hostname "youtube.com".toList
        || containsL u.hostname "youtu.be".toList then
      some (VKind.youtube, cleanYouTubeUrl url)
    else if containsL u.hostname "vimeo.com".toList then
      some (VKind.vimeo, cleanVimeoUrl url)
    else if containsL (lcStr url.toList) ".mp4".toList
        || endsWithL (lcStr u.pathname) ".mp4".toList then
      some (VKind.mp4, url)
    else none

/-- C8 counterexample: the bare locators `foo.MP4` and `foo.mp4` are not
absolute URLs, so the URL constructor throws and validateVideoUrl
rejects both rather than accepting them. -/
theorem validateVideoUrl_bare_file_rejected :
    validateVideoUrl "foo.MP4" = none ∧ validateVideoUrl "foo.mp4" = none := by
  constructor <;> rfl

/-- C8 (amended) -/
theorem validateVideoUrl_canonicalization :
    validateVideoUrl "https://youtu.be/XYZ"
        = some (VKind.youtube, "https://www.youtube.com/watch?v=XYZ")
    ∧ validateVideoUrl "https://www.youtube.com/watch?v=XYZ"
        = some (VKind.youtube, "https://www.youtube.com/watch?v=XYZ")
    ∧ validateVideoUrl "https://vimeo.com/12345"
        = some (VKind.vimeo, "https://vimeo.com/12345")
    ∧ validateVideoUrl "https://vimeo.com/video/12345"
        = some (VKind.vimeo, "https://vimeo.com/12345")
    ∧ validateVideoUrl "https://example.com/foo.MP4"
        = some (VKind.mp4, "https://example.com/foo.MP4")
    ∧ validateVideoUrl "https://example.com/foo.mp4"
        = some (VKind.mp4, "https://example.com/foo.mp4")
    ∧ validateVideoUrl "https://example.com/notvideo" = none := by
  refine ⟨?_, ?_, ?_, ?_, ?_, ?_, ?_⟩ <;> rfl

/-! ## Video backend adapter (src/js/video.js, VideoPlayer)

The backend objects (YT.Player, Vimeo.Player, HTMLVideoElement) are
external; `Backend` models the live element state their calls read and
write, and `BCall` records the backend call issued.  Methods return
`Except`: accessing the `player` field while it is `null` is the JS
TypeError, and a method that returns before touching it cannot throw. -/

/-- Live state of the underlying playback element. -/
structure Backend where
  currentTime : Rat
  playing : Bool
  muted : Bool
  volume : Rat
deriving DecidableEq, Repr

/-- Fields of the `VideoPlayer` adapter (video.js constructor). -/
structure VPState where
  kind : Option VKind
  player : Option Backend
  ready : Bool
  currentTime : Rat
  duration : Rat
  playing : Bool
  muted : Bool
  volume : Rat
deriving DecidableEq, Repr

/-- Backend calls observable from one adapter method invocation. -/
inductive BCall where
  | play
  | pause
  | seekTo (t : Rat)
  | setVol (v : Rat)
  | mute
  | unmute
  | setMuted (b : Bool)
deriving DecidableEq, Repr

/-- Dereference `this.player`; throws a TypeError when it is null. -/
def getPlayerB (p : Option Backend) : Except String Backend :=
  match p with
  | some b => Except.ok b
  | none => Except.error "TypeError: player is null"

/-- play (video.js lines 573-587): no-op before readiness, else forward to
the backend (which starts playing). -/
def VPState.play (s : VPState) : Except String (VPState × List BCall) :=
  if s.ready = false then Except.ok (s, [])
  else
    match s.kind with
    | some VKind.youtube => do
      let b ← getPlayerB s.player
      Except.ok ({ s with player := some { b with playing := true } }, [BCall.play])
    | some VKind.vimeo => do
      let b ← getPlayerB s.player
      Except.ok ({ s with player := some { b with playing := true } }, [BCall.play])
    | some VKind.mp4 => do
      let b ← getPlayerB s.player
      Except.ok ({ s with player := some { b with playing := true } }, [BCall.play])
    | none => Except.ok (s, [])

/-- pause (video.js lines 589-603). -/
def VPState.pause (s : VPState) : Except String (VPState × List BCall) :=
  if s.ready = false then Except.ok (s, [])
  else
    match s.kind with
    | some VKind.youtube => do
      let b ← getPlayerB s.player
      Except.ok ({ s with player := some { b with playing := false } }, [BCall.pause])
    | some VKind.vimeo => do
      let b ← getPlayerB s.player
      Except.ok ({ s with player := some { b with playing := false } }, [BCall.pause])
    | some VKind.mp4 => do
      let b ← getPlayerB s.player
      Except.ok ({ s with player := some { b with playing := false } }, [BCall.pause])
    | none => Except.ok (s, [])

/-- seek (video.js lines 605-621): no-op before readiness; afterwards
forward to the backend and record `this.currentTime = time` (the
assignment after the switch also runs when the kind is unrecognized). -/
def VPState.seek (s : VPState) (time : Rat) : Except String (VPState × List BCall) :=
  if s.ready = false then Except.ok (s, [])
  else
    match s.kind with
    | some VKind.youtube => do
      let b ← getPlayerB s.player
      let b2 : Backend := { b with currentTime := time }
      Except.ok ({ s with player := some b2, currentTime := time }, [BCall.seekTo time])
    | some VKind.vimeo => do
      let b ← getPlayerB s.player
      let b2 : Backend := { b with currentTime := time }
      Except.ok ({ s with player := some b2, currentTime := time }, [BCall.seekTo time])
    | some VKind.mp4 => do
      let b ← getPlayerB s.player
      let b2 : Backend := { b with currentTime := time }
      Except.ok ({ s with player := some b2, currentTime := time }, [BCall.seekTo time])
    | none => Except.ok ({ s with currentTime := time }, [])

/-- getCurrentTime (video.js lines 623-637): 0 before readiness; YouTube
and MP4 read the element (`|| 0` is the identity on a number here), Vimeo
returns the tracked `this.currentTime`. -/
def VPState.getCurrentTime (s : VPState) : Except String Rat :=
  if s.ready = false then Except.ok 0
  else
    match s.kind with
    | some VKind.youtube => do
      let b ← getPlayerB s.player
      Except.ok b.currentTime
    | some VKind.vimeo => Except.ok s.currentTime
    | some VKind.mp4 => do
      let b ← getPlayerB s.player
      Except.ok b.currentTime
    | none => Except.ok 0

/-- isPlaying (video.js lines 643-655). -/
def VPState.isPlaying (s : VPState) : Except String Bool :=
  if s.ready = false then Except.ok false
  else
    match s.kind with
    | some VKind.youtube => do
      let b ← getPlayerB s.player
      Except.ok b.playing
    | some VKind.vimeo => Except.ok s.playing
    | some VKind.mp4 => Except.ok s.playing
    | none => Except.ok false

/-- setVolume (video.js lines 657-673): the clamped volume is stored
before the readiness check, so the adapter field changes even before
readiness, but no backend call is made. -/
def VPState.setVolume (s : VPState) (volume : Rat) : Except String (VPState × List BCall) :=
  let s1 := { s with volume := max 0 (min 1 volume) }
  if s1.ready = false then Except.ok (s1, [])
  else
    match s1.kind with
    | some VKind.youtube => do
      let b ← getPlayerB s1.player
      let b2 : Backend := { b with volume := s1.volume * 100 }
      Except.ok ({ s1 with player := some b2 }, [BCall.setVol (s1.volume * 100)])
    | some VKind.vimeo => do
      let b ← getPlayerB s1.player
      let b2 : Backend := { b with volume := s1.volume }
      Except.ok ({ s1 with player := some b2 }, [BCall.setVol s1.volume])
    | some VKind.mp4 => do
      let b ← getPlayerB s1.player
      let b2 : Backend := { b with volume := s1.volume }
      Except.ok ({ s1 with player := some b2 }, [BCall.setVol s1.volume])
    | none => Except.ok (s1, [])

/-- toggleMute (video.js lines 675-704). -/
def VPState.toggleMute (s : VPState) : Except String (VPState × List BCall) :=
  if s.ready = false then Except.ok (s, [])
  else
    match s.kind with
    | some VKind.youtube => do
      let b ← getPlayerB s.player
      if b.muted then
        let b2 : Backend := { b with muted := false }
        Except.ok ({ s with player := some b2, muted := false }, [BCall.unmute])
      else
        let b2 : Backend := { b with muted := true }
        Except.ok ({ s with player := some b2, muted := true }, [BCall.mute])
    | some VKind.vimeo => do
      let b ← getPlayerB s.player
      if b.volume > 0 then
        let b2 : Backend := { b with volume := 0 }
        Except.ok ({ s with volume := b.volume, player := some b2, muted := true },
          [BCall.setVol 0])
      else
        let b2 : Backend := { b with volume := s.volume }
        Except.ok ({ s with player := some b2, muted := false },
          [BCall.setVol s.volume])
    | some VKind.mp4 => do
      let b ← getPlayerB s.player
      let b2 : Backend := { b with muted := !b.muted }
      Except.ok ({ s with player := some b2, muted := !b.muted },
        [BCall.setMuted (!b.muted)])
    | none => Except.ok (s, [])

/-- isMuted (video.js lines 706-718). -/
def VPState.isMuted (s : VPState) : Except String Bool :=
  if s.ready = false then Except.ok false
  else
    match s.kind with
    | some VKind.youtube => do
      let b ← getPlayerB s.player
      Except.ok b.muted
    | some VKind.vimeo => Except.ok s.muted
    | some VKind.mp4 => Except.ok s.muted
    | none => Except.ok false

/-- C9 -/
theorem adapter_noop_before_ready (s : VPState) (t v : Rat)
    (h : s.ready = false) :
    VPState.play s = Except.ok (s, [])
    ∧ VPState.pause s = Except.ok (s, [])
    ∧ VPState.seek s t = Except.ok (s, [])
    ∧ VPState.setVolume s v = Except.ok ({ s with volume := max 0 (min 1 v) }, [])
    ∧ VPState.toggleMute s = Except.ok (s, [])
    ∧ VPState.getCurrentTime s = Except.ok 0
    ∧ VPState.isPlaying s = Except.ok false
    ∧ VPState.isMuted s = Except.ok false := by
  refine ⟨?_, ?_, ?_, ?_, ?_, ?_, ?_, ?_⟩ <;>
    simp [VPState.play, VPState.pause, VPState.seek, VPState.setVolume,
      VPState.toggleMute, VPState.getCurrentTime, VPState.isPlaying,
      VPState.isMuted, h]

/-- Concrete not-yet-ready adapter state for the C9 witness. -/
def wVP : VPState :=
  { kind := none, player := none, ready := false, currentTime := 0,
    duration := 0, playing := false, muted := false, volume := 1/2 }

/-- Witness for C9 at a concrete pre-readiness adapter state. -/
theorem adapter_noop_before_ready_witness :
    VPState.play wVP = Except.ok (wVP, [])
    ∧ VPState.pause wVP = Except.ok (wVP, [])
    ∧ VPState.seek wVP 3 = Except.ok (wVP, [])
    ∧ VPState.setVolume wVP 2 = Except.ok ({ wVP with volume := max 0 (min 1 2) }, [])
    ∧ VPState.toggleMute wVP = Except.ok (wVP, [])
    ∧ VPState.getCurrentTime wVP = Except.ok 0
    ∧ VPState.isPlaying wVP = Except.ok false
    ∧ VPState.isMuted wVP = Except.ok false :=
  adapter_noop_before_ready wVP 3 2 rfl

end WatchTogether
